import Mathlib

/-!
Verification development for the `nrl` interactive line-editor library.

The C++ core (`nrl.cc` / `nrl.hh`) is shallowly embedded here:

* the session object `nrl::handle` becomes the structure `Session`;
* buffer bytes and offsets become `Nat` (machine `unsigned` subtraction is
  made explicit with `u32sub` where underflow can actually occur);
* every write to the terminal file descriptor becomes an element of the
  `Out` list returned next to the updated state;
* the external collaborators (libunistring's `u8_*` primitives, libtermkey's
  decoded key events, the `ioctl`/DSR world queries) are modelled by their
  documented byte-level semantics, and the few places where the model is an
  abstraction are marked in the doc comments.

Definitions come first, theorems afterwards.
-/

set_option maxRecDepth 10000
set_option maxHeartbeats 1000000

namespace Nrl

/-- RGB color triple (`terminal::info::color`, three `uint8_t` channels). -/
structure Color where
  r : Nat
  g : Nat
  b : Nat
deriving DecidableEq, Repr

/-- HSV color triple (`hsv_color`, three `uint8_t` channels). -/
structure HsvColor where
  h : Nat
  s : Nat
  v : Nat
deriving DecidableEq, Repr

/-- Truncate an `int` expression to `uint8_t` (conversion modulo 256). -/
def toU8 (x : Int) : Nat := (Int.emod x 256).toNat

/-- Subtraction on the C++ `unsigned` (32-bit) type: `a - b` modulo `2^32`
(for arguments below `2^32`). -/
def u32sub (a b : Nat) : Nat := (a + (4294967296 - b % 4294967296)) % 4294967296

/-- Embedding of `hsv_to_rgb` (integer six-region hue formula; `>> 8` is
division by 256, all intermediate values fit in `int`). -/
def hsv_to_rgb (hsv : HsvColor) : Color :=
  if hsv.s = 0 then ⟨hsv.v, hsv.v, hsv.v⟩
  else
    let region := hsv.h / 43
    let remainder := (hsv.h - region * 43) * 6
    let p := hsv.v * (255 - hsv.s) / 256
    let q := hsv.v * (255 - hsv.s * remainder / 256) / 256
    let t := hsv.v * (255 - hsv.s * (255 - remainder) / 256) / 256
    if region = 0 then ⟨hsv.v, t, p⟩
    else if region = 1 then ⟨q, hsv.v, p⟩
    else if region = 2 then ⟨p, hsv.v, t⟩
    else if region = 3 then ⟨p, q, hsv.v⟩
    else if region = 4 then ⟨t, p, hsv.v⟩
    else ⟨hsv.v, p, q⟩

/-- Embedding of `rgb_to_hsv`.  The hue computation happens in `int`
arithmetic (the channel difference may be negative, C++ `/` truncates toward
zero, hence `Int.tdiv`) and is then narrowed to `uint8_t`. -/
def rgb_to_hsv (rgb : Color) : HsvColor :=
  let rgb_min := min rgb.r (min rgb.g rgb.b)
  let rgb_max := max rgb.r (max rgb.g rgb.b)
  if rgb_max = 0 then ⟨0, 0, rgb_max⟩
  else
    let s := 255 * (rgb_max - rgb_min) / rgb_max
    if s = 0 then ⟨0, s, rgb_max⟩
    else if rgb_max = rgb.r then
      ⟨toU8 (0 + Int.tdiv (43 * ((rgb.g : Int) - (rgb.b : Int))) ((rgb_max : Int) - (rgb_min : Int))), s, rgb_max⟩
    else if rgb_max = rgb.g then
      ⟨toU8 (85 + Int.tdiv (43 * ((rgb.b : Int) - (rgb.r : Int))) ((rgb_max : Int) - (rgb_min : Int))), s, rgb_max⟩
    else
      ⟨toU8 (171 + Int.tdiv (43 * ((rgb.r : Int) - (rgb.g : Int))) ((rgb_max : Int) - (rgb_min : Int))), s, rgb_max⟩

/-- Embedding of `adjust_rgb`.  The `v` updates are `uint8_t` assignments of
`int` expressions, hence the `toU8` narrowing. -/
def adjust_rgb (fg bg : Color) (adjust_val : Int) : Color × Color :=
  let hsv_fg := rgb_to_hsv fg
  let hsv_bg := rgb_to_hsv bg
  if (if 0 ≤ adjust_val then 128 ≤ hsv_bg.v else hsv_bg.v < 128) then
    let fgv := if adjust_val < (hsv_fg.v : Int) then toU8 ((hsv_fg.v : Int) - adjust_val) else 0
    let bgv := toU8 ((hsv_bg.v : Int) - adjust_val)
    (hsv_to_rgb ⟨hsv_fg.h, hsv_fg.s, fgv⟩, hsv_to_rgb ⟨hsv_bg.h, hsv_bg.s, bgv⟩)
  else
    let fgv := if (hsv_fg.v : Int) < 255 - adjust_val then toU8 ((hsv_fg.v : Int) + adjust_val) else 255
    let bgv := toU8 ((hsv_bg.v : Int) + adjust_val)
    (hsv_to_rgb ⟨hsv_fg.h, hsv_fg.s, fgv⟩, hsv_to_rgb ⟨hsv_bg.h, hsv_bg.s, bgv⟩)

/-- Test `(b & 0xc0) == 0x80` for a byte value `b < 256`: `b` is a UTF-8
continuation byte. -/
def isContB (b : Nat) : Bool := decide (0x80 ≤ b ∧ b < 0xc0)

/-- Length of the UTF-8 sequence determined by its leading byte, as computed
by the chain of comparisons in `offset_after_n_chars` (`< 0x80` → 1,
`< 0xe0` → 2, `< 0xf0` → 3, otherwise 4). -/
def utf8_step (b : Nat) : Nat :=
  if b < 0x80 then 1 else if b < 0xe0 then 2 else if b < 0xf0 then 3 else 4

/-- UTF-8 encoding of a codepoint (libunistring `u8_uctomb`, modelled by the
standard encoding it implements). -/
def utf8_encode (c : Nat) : List Nat :=
  if c < 0x80 then [c]
  else if c < 0x800 then [0xc0 + c / 64, 0x80 + c % 64]
  else if c < 0x10000 then [0xe0 + c / 4096, 0x80 + c / 64 % 64, 0x80 + c % 64]
  else [0xf0 + c / 262144, 0x80 + c / 4096 % 64, 0x80 + c / 64 % 64, 0x80 + c % 64]

/-- Position of the codepoint preceding byte position `i` (libunistring
`u8_prev`, modelled by its semantics: step back over continuation bytes to
the previous non-continuation byte). -/
def utf8_prev (buf : List Nat) : Nat → Nat
  | 0 => 0
  | i + 1 => if isContB (buf.getD i 0) then utf8_prev buf i else i

/-- Decode the codepoint starting at byte position `i` (libunistring
`u8_mbtoucr` / `u8_next`, modelled by the standard decoding; out-of-range
reads yield byte value 0, which the code never relies on). -/
def utf8_decode (buf : List Nat) (i : Nat) : Nat :=
  let b0 := buf.getD i 0
  if b0 < 0x80 then b0
  else if b0 < 0xe0 then (b0 - 0xc0) * 64 + (buf.getD (i + 1) 0 - 0x80)
  else if b0 < 0xf0 then
    (b0 - 0xe0) * 4096 + (buf.getD (i + 1) 0 - 0x80) * 64 + (buf.getD (i + 2) 0 - 0x80)
  else
    (b0 - 0xf0) * 262144 + (buf.getD (i + 1) 0 - 0x80) * 4096 +
      (buf.getD (i + 2) 0 - 0x80) * 64 + (buf.getD (i + 3) 0 - 0x80)

/-- Number of codepoints in the byte range `buf[start .. start+n)`
(libunistring `u8_mbsnlen`; on the well-formed UTF-8 ranges the code passes
to it this is the number of non-continuation bytes). -/
def u8_mbsnlen (buf : List Nat) (start n : Nat) : Nat :=
  List.countP (fun b => ! isContB b) (List.take n (List.drop start buf))

/-- Number of bytes before the first NUL byte, at most `maxlen`
(libunistring `u8_strnlen` counts units, i.e. bytes). -/
def u8_strnlen (buf : List Nat) (start maxlen : Nat) : Nat :=
  (List.takeWhile (fun b => b != 0) (List.take maxlen (List.drop start buf))).length

/-- Modelled from the spec: the word class used by the word-motion actions is
Unicode `LETTER | NUMBER` (libunistring `uc_is_general_category` with
`uc_general_category_or (UC_LETTER, UC_NUMBER)`, an external collaborator not
in the repository).  The model is exact on the ASCII range, the only range
any theorem below evaluates it on. -/
def is_letter_or_number (c : Nat) : Bool :=
  decide ((0x30 ≤ c ∧ c ≤ 0x39) ∨ (0x41 ≤ c ∧ c ≤ 0x5a) ∨ (0x61 ≤ c ∧ c ≤ 0x7a))

/-- Embedding of `nonescape_len`'s loop: `in_csi` is the flag, the result
counts bytes with `(ch & 0xc0) != 0x80` seen outside CSI sequences.  A CSI
sequence ends at a byte in `0x40..0x7e` other than `[`. -/
def nonescape_len_go : Bool → List Nat → Nat
  | _, [] => 0
  | false, ch :: t =>
    if ch = 0x1b then nonescape_len_go true t
    else if isContB ch then nonescape_len_go false t
    else 1 + nonescape_len_go false t
  | true, ch :: t => nonescape_len_go (decide (ch = 0x5b ∨ ch < 0x40 ∨ 0x7e < ch)) t

/-- Embedding of `nonescape_len`: visible length of a byte string, ignoring
CSI escape sequences. -/
def nonescape_len (sv : List Nat) : Nat := nonescape_len_go false sv

/-- Relation `Utf8Encodes bs cs`: the byte string `bs` is the UTF-8 encoding
of the codepoint sequence `cs` (all codepoints in the Unicode range).  It is
the specification-side notion of a valid UTF-8 byte string together with its
codepoint count. -/
inductive Utf8Encodes : List Nat → List Nat → Prop
  | nil : Utf8Encodes [] []
  | cons (c : Nat) (tl cs : List Nat) : c < 0x110000 → Utf8Encodes tl cs →
      Utf8Encodes (utf8_encode c ++ tl) (c :: cs)

/-- A byte string is valid UTF-8 when it encodes some codepoint sequence. -/
def ValidUtf8 (bs : List Nat) : Prop := ∃ cs, Utf8Encodes bs cs

/-- Byte position `i` is a codepoint boundary of `buf`: it is inside the
buffer (the end counts) and does not point at a continuation byte. -/
def is_codepoint_boundary (buf : List Nat) (i : Nat) : Bool :=
  decide (i ≤ buf.length) && (decide (i = buf.length) || ! isContB (buf.getD i 0))

/-- Lifecycle state (`enum struct state { invalid, open, closed }`; `open` is
a Lean keyword, hence the `st_` constructor names). -/
inductive TermState
  | st_invalid
  | st_open
  | st_closed
deriving DecidableEq, Repr

/-- Modifier bit `TERMKEY_KEYMOD_SHIFT` of libtermkey. -/
def TERMKEY_KEYMOD_SHIFT : Nat := 1
/-- Modifier bit `TERMKEY_KEYMOD_ALT` of libtermkey. -/
def TERMKEY_KEYMOD_ALT : Nat := 2
/-- Modifier bit `TERMKEY_KEYMOD_CTRL` of libtermkey. -/
def TERMKEY_KEYMOD_CTRL : Nat := 4

/-- Symbolic key codes of libtermkey used by the key table (numeric values
follow the `TermKeySym` enumeration order; only distinctness matters). -/
def TERMKEY_SYM_BACKSPACE : Nat := 1
/-- `TERMKEY_SYM_ENTER`. -/
def TERMKEY_SYM_ENTER : Nat := 3
/-- `TERMKEY_SYM_UP`. -/
def TERMKEY_SYM_UP : Nat := 7
/-- `TERMKEY_SYM_DOWN`. -/
def TERMKEY_SYM_DOWN : Nat := 8
/-- `TERMKEY_SYM_LEFT`. -/
def TERMKEY_SYM_LEFT : Nat := 9
/-- `TERMKEY_SYM_RIGHT`. -/
def TERMKEY_SYM_RIGHT : Nat := 10
/-- `TERMKEY_SYM_INSERT`. -/
def TERMKEY_SYM_INSERT : Nat := 13
/-- `TERMKEY_SYM_DELETE`. -/
def TERMKEY_SYM_DELETE : Nat := 14
/-- `TERMKEY_SYM_HOME`. -/
def TERMKEY_SYM_HOME : Nat := 18
/-- `TERMKEY_SYM_END`. -/
def TERMKEY_SYM_END : Nat := 19

/-- A decoded key event (`TermKeyKey`): a Unicode codepoint with modifiers, a
symbolic key with modifiers, or an event of another type (which `on_key`
ignores). -/
inductive KeyEvent
  | unicode (modifiers codepoint : Nat)
  | keysym (modifiers sym : Nat)
  | otherEvent
deriving DecidableEq, Repr

/-- One element of the byte stream the editor writes to the terminal fd.
Each constructor stands for one `write`/`writev` element of the source with
its arguments; the claims below only inspect which elements are emitted (in
particular, whether any are). -/
inductive Out
  /-- `move_to(s, x, y)` = `ESC[initial_row+y;initial_col+xH` with the given
  arguments. -/
  | moveTo (x y : Nat)
  /-- a raw byte chunk (buffer slices, the erase blank, the prompt, `«`). -/
  | chunk (bs : List Nat)
  /-- `ESC[K` clear to end of line. -/
  | clearEol
  /-- `\n ESC[K` emitted once per vanished wrapped row. -/
  | newlineClear
  /-- `\n ESC[1L` (insert one line below, frame present). -/
  | newlineInsert
  /-- `ESC[S \r ESC[1L` (scroll up and insert a blank line). -/
  | scrollInsert
  /-- the `show_empty_message` vectored write (dim color, hint, color
  restore, cursor move back). -/
  | showEmpty
  /-- `ESC[m` SGR reset. -/
  | sgrReset
  /-- an OSC 133 marker: 0 = `L`, 1 = `A`, 2 = `B`, 3 = `C`. -/
  | osc133Mark (which : Nat)
  /-- a single `\r`. -/
  | carriageReturn
  /-- the frame rows emitted by `prepare`. -/
  | framePaint
  /-- the SGR foreground/background selection for the colored text area. -/
  | colorSel
deriving DecidableEq, Repr

/-- The session state `nrl::handle` (the fields the editing engine reads or
writes; file descriptors, the epoll object and the termkey handle live in the
operating system and are not part of the data model). -/
structure Session where
  buffer : List Nat
  line_offset : List Nat
  filled : Nat
  returned : Nat
  max_lines : Nat
  prompt : List Nat
  empty_message : List Nat
  empty_message_fg : Color
  fl : Nat
  term_state : TermState
  term_rows : Nat
  term_cols : Nat
  cur_frame_lines : Nat
  frame_highlight_fg : Color
  text_default_fg : Color
  text_default_bg : Color
  info_default_foreground : Color
  info_default_background : Color
  multiline : Bool
  insert : Bool
  osc133 : Bool
  initial_col : Nat
  initial_row : Nat
  offset : Nat
  nchars : Nat
  pos_x : Nat
  requested_pos_x : Nat
  pos_y : Nat
  first : Nat
  prompt_len : Nat
deriving Repr

/-- Embedding of `offset_after_n_chars`: starting at byte `offset`, step over
at most `n` codepoints (by leading byte) without running past the end of the
buffer; returns the final offset and the number of codepoints consumed. -/
def offset_after_n_chars (buf : List Nat) : Nat → Nat → Nat × Nat
  | 0, offset => (offset, 0)
  | n + 1, offset =>
    if offset < buf.length then
      let r := offset_after_n_chars buf n (offset + utf8_step (buf.getD offset 0))
      (r.1, r.2 + 1)
    else (offset, 0)

/-- The `while` loop of `recompute_line_offset`, with explicit fuel (the C++
loop runs unboundedly; `buffer.length + 2` fuel is enough whenever
`term_cols ≥ 1`, and no claim depends on the degenerate zero-width case). -/
def recompute_go (buf : List Nat) (term_cols : Nat) : Nat → Nat → Nat → List Nat → List Nat
  | 0, _, _, acc => acc
  | fuel + 1, avail, o, acc =>
    if o < buf.length then
      if (offset_after_n_chars buf avail o).2 < avail then acc
      else
        recompute_go buf term_cols fuel term_cols (offset_after_n_chars buf avail o).1
          (acc ++ [(offset_after_n_chars buf avail o).1])
    else acc

/-- `std::vector::resize (n)`: truncate or extend with value-initialized
(zero) elements. -/
def resize_to (n : Nat) (l : List Nat) : List Nat :=
  List.take n l ++ List.replicate (n - l.length) 0

/-- Embedding of `recompute_line_offset (s, r)`: `avail` is
`term_cols - (r == 0 ? prompt_len : 0)` on the `unsigned` type, the offset
vector is resized to `r + 1` entries, and then break offsets are appended
while full rows keep being consumed.  Returns the new `line_offset`. -/
def recompute_line_offset (s : Session) (r : Nat) : List Nat :=
  let avail := u32sub s.term_cols (if r = 0 then s.prompt_len else 0)
  let lo := resize_to (r + 1) s.line_offset
  recompute_go s.buffer s.term_cols (s.buffer.length + 2) avail (lo.getD r 0) lo

/-- Result of a key callback: the new session state, the bytes written, and
the `bool` return value (`true` commits the edit). -/
abbrev CbResult := Session × List Out × Bool

/-- Embedding of `cb_beginning_of_line`. -/
def cb_beginning_of_line (s : Session) : CbResult :=
  if s.offset ≠ 0 then
    ({s with pos_x := s.prompt_len, pos_y := 0, offset := 0},
     [Out.moveTo s.prompt_len 0], false)
  else (s, [], false)

/-- Embedding of `cb_end_of_line` (`u8_strnlen` counts bytes, not
codepoints — transcribed as the source has it). -/
def cb_end_of_line (s : Session) : CbResult :=
  if s.offset ≠ s.buffer.length then
    let pos_y := s.line_offset.length - 1
    let start := s.line_offset.getD pos_y 0
    let px := (if pos_y = 0 then s.prompt_len else 0) +
      u8_strnlen s.buffer start (s.buffer.length - start)
    ({s with pos_y := pos_y, pos_x := px, requested_pos_x := px, offset := s.buffer.length},
     [Out.moveTo px pos_y], false)
  else (s, [], false)

/-- Embedding of `cb_insert` (toggle insert/overwrite). -/
def cb_insert (s : Session) : CbResult := ({s with insert := ! s.insert}, [], false)

/-- Embedding of `cb_enter` (commit). -/
def cb_enter (s : Session) : CbResult := (s, [], true)

/-- Embedding of `cb_backward_char`.  In the non-multiline case at column 0
the source leaves the position untouched (empty `else` branch). -/
def cb_backward_char (s : Session) : CbResult :=
  if s.offset > 0 then
    let offset := utf8_prev s.buffer s.offset
    let xy :=
      if s.pos_x = 0 then
        if s.multiline then (s.term_cols - 1, s.pos_y - 1) else (s.pos_x, s.pos_y)
      else (s.pos_x - 1, s.pos_y)
    ({s with offset := offset, pos_x := xy.1, pos_y := xy.2, requested_pos_x := xy.1},
     [Out.moveTo xy.1 xy.2], false)
  else (s, [], false)

/-- Embedding of `cb_forward_char`. -/
def cb_forward_char (s : Session) : CbResult :=
  if s.offset < s.buffer.length then
    let offset := s.offset + utf8_step (s.buffer.getD s.offset 0)
    let xy :=
      if s.pos_x + 1 = s.term_cols then
        if s.multiline then (0, s.pos_y + 1) else (s.pos_x, s.pos_y)
      else (s.pos_x + 1, s.pos_y)
    ({s with offset := offset, pos_x := xy.1, pos_y := xy.2, requested_pos_x := xy.1},
     [Out.moveTo xy.1 xy.2], false)
  else (s, [], false)

/-- Embedding of `cb_previous_screen_line`.  Motion to row 0 is refused when
the sticky column lies inside the prompt. -/
def cb_previous_screen_line (s : Session) : CbResult :=
  if s.pos_y > 0 then
    if s.pos_y > 1 ∨ s.prompt_len ≤ s.requested_pos_x then
      let pos_y := s.pos_y - 1
      let n := s.requested_pos_x - (if pos_y = 0 then s.prompt_len else 0)
      let oc := offset_after_n_chars s.buffer n (s.line_offset.getD pos_y 0)
      let pos_x := if pos_y = 0 then oc.2 + s.prompt_len else oc.2
      ({s with pos_y := pos_y, offset := oc.1, pos_x := pos_x},
       [Out.moveTo pos_x pos_y], false)
    else (s, [], false)
  else (s, [], false)

/-- Embedding of `cb_next_screen_line`. -/
def cb_next_screen_line (s : Session) : CbResult :=
  if s.pos_y + 1 < s.line_offset.length then
    let pos_y := s.pos_y + 1
    let requested := s.pos_x
    let oc := offset_after_n_chars s.buffer requested (s.line_offset.getD pos_y 0)
    ({s with pos_y := pos_y, requested_pos_x := requested, offset := oc.1, pos_x := oc.2},
     [Out.moveTo oc.2 pos_y], false)
  else (s, [], false)

/-- Embedding of `cb_backspace`: step back one codepoint (reusing
`cb_backward_char`, whose cursor move is emitted as well), erase it, rewrap
from the current row, and redraw the suffix, a blank, and the cursor move in
one vectored write. -/
def cb_backspace (s : Session) : CbResult :=
  if s.offset > 0 then
    let old_offset := s.offset
    let r := cb_backward_char s
    let s := r.1
    let s := {s with
      buffer := List.take s.offset s.buffer ++ List.drop old_offset s.buffer,
      nchars := s.nchars - 1}
    let s := {s with line_offset := recompute_line_offset s s.pos_y}
    ({s with requested_pos_x := s.pos_x},
     r.2.1 ++ [Out.chunk (List.drop s.offset s.buffer), Out.chunk [0x20],
               Out.moveTo s.pos_x s.pos_y], false)
  else (s, [], false)

/-- Embedding of `cb_delete`. -/
def cb_delete (s : Session) : CbResult :=
  if s.offset < s.buffer.length then
    let n := utf8_step (s.buffer.getD s.offset 0)
    let s := {s with
      buffer := List.take s.offset s.buffer ++ List.drop (s.offset + n) s.buffer,
      nchars := s.nchars - 1}
    let s := {s with line_offset := recompute_line_offset s s.pos_y}
    ({s with requested_pos_x := s.pos_x},
     [Out.chunk (List.drop s.offset s.buffer), Out.chunk [0x20],
      Out.moveTo s.pos_x s.pos_y], false)
  else (s, [], false)

/-- The backward scan of `cb_backward_word`: `p` is the current position,
`uc1` the codepoint starting there; while `p` is not at the buffer start,
look at the preceding codepoint and stop on a non-word → word transition.
The fuel is an upper bound on the iteration count (`p` strictly
decreases). -/
def backward_word_scan (buf : List Nat) : Nat → Nat → Nat → Nat
  | 0, p, _ => p
  | fuel + 1, p, uc1 =>
    if p > 0 then
      let q := utf8_prev buf p
      let uc2 := utf8_decode buf q
      if is_letter_or_number uc1 && ! is_letter_or_number uc2 then p
      else backward_word_scan buf fuel q uc2
    else p

/-- Decrement `pos_y` while the row start lies beyond the new offset
(the `while (line_offset[pos_y] > offset)` loop of `cb_backward_word`). -/
def walk_rows_down (lo : List Nat) (off : Nat) : Nat → Nat
  | 0 => 0
  | y + 1 => if off < lo.getD (y + 1) 0 then walk_rows_down lo off y else y + 1

/-- Embedding of `cb_backward_word`. -/
def cb_backward_word (s : Session) : CbResult :=
  if s.offset > 0 then
    let p0 := utf8_prev s.buffer s.offset
    let p := backward_word_scan s.buffer (p0 + 1) p0 (utf8_decode s.buffer p0)
    let pos_y := walk_rows_down s.line_offset p s.pos_y
    let base := s.line_offset.getD pos_y 0
    let px0 := u8_mbsnlen s.buffer base (p - base)
    let pos_x := if pos_y = 0 then px0 + s.prompt_len else px0
    ({s with offset := p, pos_y := pos_y, pos_x := pos_x, requested_pos_x := pos_x},
     [Out.moveTo pos_x pos_y], false)
  else (s, [], false)

/-- The forward scan of `cb_forward_word`: `p` and `q` are consecutive
codepoint positions and `uc1` is the codepoint starting at `p` (the source
reuses the variable `uc1` of its initial `u8_next` for this, so the very
first transition candidate is the position after the next codepoint).  Stops
at the buffer end or on a word → non-word transition at `q`. -/
def forward_word_scan (buf : List Nat) : Nat → Nat → Nat → Nat → Nat
  | 0, p, _, _ => p
  | fuel + 1, p, q, uc1 =>
    if q ≤ buf.length then
      if q = buf.length then q
      else
        let uc2 := utf8_decode buf q
        let r := q + utf8_step (buf.getD q 0)
        if is_letter_or_number uc1 && ! is_letter_or_number uc2 then q
        else forward_word_scan buf fuel q r uc2
    else p

/-- Increment `pos_y` while the next row starts at or before the new offset
(the `while` loop of `cb_forward_word`). -/
def walk_rows_up (lo : List Nat) (off : Nat) : Nat → Nat → Nat
  | y, 0 => y
  | y, fuel + 1 =>
    if y + 1 < lo.length ∧ lo.getD (y + 1) 0 ≤ off then walk_rows_up lo off (y + 1) fuel
    else y

/-- Embedding of `cb_forward_word`.  The decoded value of the initial
`u8_next` call is immediately overwritten by the second one and therefore not
modelled. -/
def cb_forward_word (s : Session) : CbResult :=
  if s.offset + 1 < s.buffer.length then
    let p1 := s.offset + utf8_step (s.buffer.getD s.offset 0)
    let p :=
      if p1 < s.buffer.length then
        forward_word_scan s.buffer (s.buffer.length + 1) p1
          (p1 + utf8_step (s.buffer.getD p1 0)) (utf8_decode s.buffer p1)
      else p1
    let pos_y := walk_rows_up s.line_offset p s.pos_y s.line_offset.length
    let base := s.line_offset.getD pos_y 0
    let px0 := u8_mbsnlen s.buffer base (p - base)
    let pos_x := if pos_y = 0 then px0 + s.prompt_len else px0
    ({s with offset := p, pos_y := pos_y, pos_x := pos_x, requested_pos_x := pos_x},
     [Out.moveTo pos_x pos_y], false)
  else (s, [], false)

/-- Embedding of `cb_unix_line_discard` (Ctrl-U): drop everything before the
cursor, reset the cursor to the prompt column of row 0, rewrap from row 0,
and emit move / rewritten buffer / clear-to-EOL / one `\n ESC[K` per
vanished row / move in one vectored write. -/
def cb_unix_line_discard (s : Session) : CbResult :=
  if s.offset > 0 then
    let s := {s with buffer := List.drop s.offset s.buffer}
    let old_nlines := s.line_offset.length
    let s := {s with pos_x := s.prompt_len, pos_y := 0}
    let s := {s with line_offset := recompute_line_offset s 0}
    (s,
     [Out.moveTo s.pos_x s.pos_y, Out.chunk s.buffer, Out.clearEol] ++
       List.replicate (old_nlines - s.line_offset.length) Out.newlineClear ++
       [Out.moveTo s.pos_x s.pos_y], false)
  else (s, [], false)

/-- Embedding of `cb_kill_line` (Ctrl-K). -/
def cb_kill_line (s : Session) : CbResult :=
  if s.offset < s.buffer.length then
    let s := {s with buffer := List.take s.offset s.buffer}
    let old_nlines := s.line_offset.length
    let s := {s with line_offset := recompute_line_offset s s.pos_y}
    (s,
     [Out.clearEol] ++
       (if s.line_offset.length < old_nlines then
          List.replicate (old_nlines - s.line_offset.length) Out.newlineClear ++
            [Out.moveTo s.pos_x s.pos_y]
        else []), false)
  else (s, [], false)

/-- The `key_map` table: `(sym, restricted modifier mask, code)` to the bound
edit action, in the order of the source initializer. -/
def key_map : List ((Bool × Nat × Nat) × (Session → CbResult)) :=
  [((false, TERMKEY_KEYMOD_CTRL, 0x61), cb_beginning_of_line),
   ((true, 0, TERMKEY_SYM_HOME), cb_beginning_of_line),
   ((false, TERMKEY_KEYMOD_CTRL, 0x65), cb_end_of_line),
   ((true, 0, TERMKEY_SYM_END), cb_end_of_line),
   ((true, 0, TERMKEY_SYM_INSERT), cb_insert),
   ((true, 0, TERMKEY_SYM_ENTER), cb_enter),
   ((true, 0, TERMKEY_SYM_LEFT), cb_backward_char),
   ((true, 0, TERMKEY_SYM_RIGHT), cb_forward_char),
   ((true, 0, TERMKEY_SYM_UP), cb_previous_screen_line),
   ((true, 0, TERMKEY_SYM_DOWN), cb_next_screen_line),
   ((true, 0, TERMKEY_SYM_BACKSPACE), cb_backspace),
   ((true, 0, TERMKEY_SYM_DELETE), cb_delete),
   ((false, TERMKEY_KEYMOD_ALT, 0x62), cb_backward_word),
   ((false, TERMKEY_KEYMOD_ALT, 0x66), cb_forward_word),
   ((false, TERMKEY_KEYMOD_CTRL, 0x75), cb_unix_line_discard),
   ((false, TERMKEY_KEYMOD_CTRL, 0x6b), cb_kill_line)]

/-- `key_map.find` on the lookup key built by `on_key`. -/
def key_map_find (sym : Bool) (m code : Nat) : Option (Session → CbResult) :=
  Option.map (fun e => e.2) (List.find? (fun e => e.1 == (sym, m, code)) key_map)

/-- The guillemet `«` shown at column 1 of the scrolled single-line view. -/
def guillemet : List Nat := [0xc2, 0xab]

/-- Embedding of `on_key`.  A Unicode key without ALT/CTRL runs the insertion
path; other Unicode keys and symbolic keys go through the dispatch table.
Returns the new state, the emitted bytes, and the commit flag.

Two places deserve attention, both transcribed as the source has them:

* in the overwrite branch, when the new codepoint's encoded length differs
  from the replaced one's, the source calls `vector::insert (pos, 0, l - l_old)`
  (an element count of zero — the arguments are swapped, so nothing is
  inserted) when shrinking, and `vector::erase` over an inverted iterator
  range (undefined behaviour, byte-wise a no-op at best) when growing; in
  both cases the byte sequence is left unchanged and `line_offset[pos_y+1..]`
  is shifted by `+1` regardless of the sign of the delta;
* `unsigned (0.9 * term_cols)` and `unsigned (0.1 * term_cols)` of the
  single-line branch are modelled as `9 * term_cols / 10` and
  `term_cols / 10`; no theorem below evaluates that branch. -/
def on_key (s : Session) (key : KeyEvent) : CbResult :=
  match key with
  | KeyEvent.unicode mods cp =>
    if mods &&& (TERMKEY_KEYMOD_ALT ||| TERMKEY_KEYMOD_CTRL) = 0 then
      let enc := utf8_encode cp
      let l := enc.length
      let out0 := if s.buffer = [] ∧ s.empty_message ≠ [] then [Out.clearEol] else []
      let step1 : Session × List Out × Nat :=
        if s.insert ∨ s.offset = s.buffer.length then
          let s := {s with
            buffer := List.take s.offset s.buffer ++ enc ++ List.drop s.offset s.buffer,
            nchars := s.nchars + 1}
          if s.multiline then
            let s := {s with line_offset := recompute_line_offset s s.pos_y}
            let to_print := s.buffer.length - s.offset
            let out1 :=
              if s.pos_x = 0 ∧ s.pos_y > 0 ∧ s.offset + l = s.buffer.length then
                -- last-column wrap workaround: rewrite the previous codepoint
                -- together with the new one from the end of the previous row
                let p := utf8_prev s.buffer s.offset
                [Out.moveTo s.term_cols (s.pos_y - 1),
                 Out.chunk (List.take (l + (s.offset - p)) (List.drop p s.buffer))]
              else [Out.chunk (List.take to_print (List.drop s.offset s.buffer))]
            let step2 : Session × List Out :=
              if s.max_lines < s.line_offset.length then
                let s := {s with max_lines := s.line_offset.length}
                if s.term_rows < s.initial_row + s.line_offset.length - 1 + s.cur_frame_lines then
                  ({s with initial_row := s.initial_row - 1}, [Out.scrollInsert])
                else if 0 < s.cur_frame_lines then (s, [Out.newlineInsert])
                else (s, [])
              else (s, [])
            (step2.1, out1 ++ step2.2, to_print)
          else
            -- single-line horizontally scrolled view
            if max 1 (9 * s.term_cols / 10) < s.initial_col + s.pos_x then
              let nchars0 := max 1 (s.term_cols / 10)
              let no1 := (offset_after_n_chars s.buffer nchars0 (s.line_offset.getD 0 0)).1
              let new_offset := if s.offset < no1 then s.offset else no1
              let s := {s with line_offset := s.line_offset.set 0 new_offset}
              let s := {s with pos_x := 1 + u8_mbsnlen s.buffer new_offset (s.offset - new_offset)}
              let no2 := (offset_after_n_chars s.buffer (u32sub s.term_cols 1) new_offset).1
              let to_print := no2 - s.line_offset.getD 0 0
              (s,
               [Out.moveTo 1 s.initial_row, Out.chunk guillemet,
                Out.chunk (List.take to_print (List.drop (s.line_offset.getD 0 0) s.buffer))],
               to_print)
            else
              let nchars0 := min (u32sub s.term_cols (s.initial_col + s.pos_x)) s.buffer.length
              let no1 := (offset_after_n_chars s.buffer nchars0 s.offset).1
              let to_print := no1 - s.offset
              (s, [Out.chunk (List.take to_print (List.drop s.offset s.buffer))], to_print)
        else
          -- overwrite at an interior position
          let l_old := utf8_step (s.buffer.getD s.offset 0)
          let s :=
            if l_old ≠ l then
              -- the buffer resizing is a no-op in the source (see above);
              -- only the later line offsets move, always by +1
              {s with line_offset := List.take (s.pos_y + 1) s.line_offset ++
                List.map (fun n => n + 1) (List.drop (s.pos_y + 1) s.line_offset)}
            else s
          let s := {s with
            buffer := List.take s.offset s.buffer ++ enc ++ List.drop (s.offset + l) s.buffer}
          (s, [Out.chunk (List.take l (List.drop s.offset s.buffer))], l)
      let s := step1.1
      let s := {s with offset := s.offset + l}
      let s := {s with pos_x := s.pos_x + 1, requested_pos_x := s.pos_x + 1}
      let step3 : Session × Nat :=
        if s.pos_x = s.term_cols then ({s with pos_x := 0, pos_y := s.pos_y + 1}, 2)
        else (s, step1.2.2)
      let s := step3.1
      (s,
       out0 ++ step1.2.1 ++ (if 1 < step3.2 then [Out.moveTo s.pos_x s.pos_y] else []),
       false)
    else
      match key_map_find false
          (mods &&& (TERMKEY_KEYMOD_ALT ||| TERMKEY_KEYMOD_SHIFT ||| TERMKEY_KEYMOD_CTRL)) cp with
      | some cb => cb s
      | none => (s, [], false)
  | KeyEvent.keysym mods sym =>
    let was_empty := s.buffer = []
    match key_map_find true
        (mods &&& (TERMKEY_KEYMOD_ALT ||| TERMKEY_KEYMOD_SHIFT ||| TERMKEY_KEYMOD_CTRL)) sym with
    | some cb =>
      let r := cb s
      if ¬ was_empty ∧ r.1.buffer = [] ∧ r.1.empty_message ≠ [] then
        (r.1, r.2.1 ++ [Out.showEmpty], r.2.2)
      else r
    | none => (s, [], false)
  | KeyEvent.otherEvent => (s, [], false)

/-- The Ctrl-C / Ctrl-D-on-empty cancellation test of `handle_one`: a Unicode
key whose modifier mask is exactly CTRL and whose codepoint is `C`/`c`, or
`D`/`d` while the buffer is empty. -/
def is_cancel_key (s : Session) (k : KeyEvent) : Prop :=
  match k with
  | KeyEvent.unicode mods cp =>
    mods = TERMKEY_KEYMOD_CTRL ∧
      (cp = 0x43 ∨ cp = 0x63 ∨ (s.buffer = [] ∧ (cp = 0x44 ∨ cp = 0x64)))
  | KeyEvent.keysym _ _ => False
  | KeyEvent.otherEvent => False

instance (s : Session) (k : KeyEvent) : Decidable (is_cancel_key s k) :=
  match k with
  | KeyEvent.unicode mods cp =>
    inferInstanceAs (Decidable (mods = TERMKEY_KEYMOD_CTRL ∧
      (cp = 0x43 ∨ cp = 0x63 ∨ (s.buffer = [] ∧ (cp = 0x44 ∨ cp = 0x64)))))
  | KeyEvent.keysym _ _ => inferInstanceAs (Decidable False)
  | KeyEvent.otherEvent => inferInstanceAs (Decidable False)

/-- A readiness event handed to `handle_one` / `process`.  `keyReady` stands
for the key descriptor being readable: the decoder then yields the listed key
events followed by `TERMKEY_RES_EOF` (when `eof` is set) or
`TERMKEY_RES_AGAIN`.  `winch` stands for the signalfd being readable with the
window size the subsequent `ioctl` reports.  `unknownFd` is an event whose
descriptor is neither. -/
inductive EpollEvent
  | keyReady (keys : List KeyEvent) (eof : Bool)
  | winch (cols rows : Nat)
  | unknownFd

/-- The key-draining loop of `handle_one`: keys are pulled one at a time; a
cancellation key or a committing callback ends the edit, EOF commits with the
current buffer.  Returns `(state, output, handled, done)`. -/
def drain_keys : Session → List Out → List KeyEvent → Bool → Session × List Out × Bool × Bool
  | s, out, [], eof => (s, out, true, eof)
  | s, out, k :: ks, eof =>
    if is_cancel_key s k then (s, out, true, true)
    else
      let r := on_key s k
      if r.2.2 then (r.1, out ++ r.2.1, true, true)
      else drain_keys r.1 (out ++ r.2.1) ks eof

/-- Embedding of `handle_one`: dispatch on which descriptor the event names.
Returns `(state, output, handled, done)`. -/
def handle_one (s : Session) (ev : EpollEvent) : Session × List Out × Bool × Bool :=
  match ev with
  | EpollEvent.keyReady keys eof => drain_keys s [] keys eof
  | EpollEvent.winch cols rows =>
    ({s with term_cols := cols, term_rows := rows}, [], true, false)
  | EpollEvent.unknownFd => (s, [], false, false)

/-- Embedding of `finalize`: reset SGR if a text color is active, emit the
OSC 133 `C` marker if enabled, and close the epoll registration
(`cleanup_epoll` flips the lifecycle state back to closed). -/
def finalize (s : Session) : Session × List Out :=
  ({s with term_state := TermState.st_closed},
   (if s.text_default_fg ≠ Color.mk 0 0 0 then [Out.sgrReset] else []) ++
     (if s.osc133 then [Out.osc133Mark 3] else []))

/-- Embedding of `handle::process`: run `handle_one`; without a completed
line return `unexpected (handled)`, otherwise finalize and return the buffer
as the line value. -/
def process (s : Session) (ev : EpollEvent) : Session × List Out × Except Bool (List Nat) :=
  let r := handle_one s ev
  if r.2.2.2 then
    let f := finalize r.1
    (f.1, r.2.1 ++ f.2, Except.ok r.1.buffer)
  else (r.1, r.2.1, Except.error r.2.2.1)

/-- The state change of `handle::prepare` on a closed session.  The source
assigns the fields one at a time; here each field receives the value it holds
when `prepare` returns (the fields read on the right-hand sides — `prompt`,
`fl`, `empty_message` and the color fields — are never written by
`prepare`, so the two presentations agree):

* `setup_epoll` stores the `ioctl TIOCGWINSZ` result (`winsz`) and opens the
  session;
* `buffer.clear ()`;
* `cur_frame_lines` is 1 exactly when a frame flag is set;
* `get_current_pos` stores the DSR reply (`curpos`);
* `offset = nchars = pos_y = 0`, `line_offset = {0}`,
  `prompt_len = nonescape_len (prompt)`, and finally `pos_x = prompt_len`;
* when an empty-buffer hint is configured, `empty_message_fg` is the dimmed
  background from `adjust_rgb (..., 48)` (against the terminal default colors,
  or against the text colors in background-frame mode). -/
def prepare_state (s : Session) (winsz curpos : Nat × Nat) : Session :=
  {s with
    term_cols := winsz.1
    term_rows := winsz.2
    term_state := TermState.st_open
    buffer := []
    cur_frame_lines := if s.fl &&& 3 ≠ 0 then 1 else 0
    initial_col := curpos.1
    initial_row := curpos.2
    offset := 0
    nchars := 0
    pos_y := 0
    line_offset := [0]
    prompt_len := nonescape_len s.prompt
    pos_x := nonescape_len s.prompt
    empty_message_fg :=
      if s.empty_message ≠ [] then
        (if s.fl &&& 3 ≠ 2 then
           adjust_rgb s.info_default_foreground s.info_default_background 48
         else adjust_rgb s.text_default_fg s.text_default_bg 48).2
      else s.empty_message_fg}

/-- The byte stream `handle::prepare` emits on a closed session, in source
order: the OSC 133 `L` marker or `\r`; the frame (plus the colored-text SGR
selection) when configured; the `A` marker, the prompt bytes and the `B`
marker; clear-to-EOL; and the dimmed empty-buffer hint when configured.
Every condition reads a field `prepare` never writes. -/
def prepare_output (s : Session) : List Out :=
  (if s.osc133 then [Out.osc133Mark 0] else [Out.carriageReturn]) ++
    (if s.fl &&& 3 ≠ 0 then
       [Out.framePaint] ++
         (if s.text_default_fg ≠ Color.mk 0 0 0 then [Out.colorSel] else [])
     else []) ++
    (if s.prompt ≠ [] then
       (if s.osc133 then [Out.osc133Mark 1] else []) ++ [Out.chunk s.prompt]
     else []) ++
    (if s.osc133 then [Out.osc133Mark 2] else []) ++
    [Out.clearEol] ++
    (if s.empty_message ≠ [] then [Out.showEmpty] else [])

/-- Embedding of `handle::prepare`.  The external world inputs are passed as
arguments: `winsz` is what `ioctl TIOCGWINSZ` reports in `setup_epoll`,
`curpos` the `(col, row)` pair parsed from the DSR reply in
`get_current_pos`.  Only a closed session does anything; an open one returns
unchanged with no output. -/
def prepare (s : Session) (winsz curpos : Nat × Nat) : Session × List Out :=
  if s.term_state = TermState.st_closed then
    (prepare_state s winsz curpos, prepare_output s)
  else (s, [])

/-- Specification-side model of the extension loop of claim C4, following the
claim's words: starting from `o` with the initial `avail`, repeatedly consume
`avail` codepoints; stop when fewer than `avail` codepoints remain, otherwise
append the new break offset and continue with `avail = term_cols`.  (Same
fuel discipline as the source-side `recompute_go`; the subtraction producing
the initial `avail` is the `unsigned` one of the session's fields.) -/
def recompute_breaks_spec (buf : List Nat) (term_cols : Nat) : Nat → Nat → Nat → List Nat
  | 0, _, _ => []
  | fuel + 1, avail, o =>
    if o < buf.length then
      if (offset_after_n_chars buf avail o).2 < avail then []
      else
        (offset_after_n_chars buf avail o).1 ::
          recompute_breaks_spec buf term_cols fuel term_cols (offset_after_n_chars buf avail o).1
    else []

/-- Specification-side model of claim C4 as a whole: first truncate
`line_offset` to length `r + 1`, then, starting from `o = line_offset[r]`
with `avail = term_cols − (prompt_len if r = 0 else 0)`, append the break
offsets the consume loop produces. -/
def recompute_line_offset_spec (s : Session) (r : Nat) : List Nat :=
  let truncated := List.take (r + 1) s.line_offset
  truncated ++
    recompute_breaks_spec s.buffer s.term_cols (s.buffer.length + 2)
      (u32sub s.term_cols (if r = 0 then s.prompt_len else 0)) (truncated.getD r 0)

/-- The stopping condition claim C5 states for the forward-word motion at
byte position `p`: either `p` is the buffer end, or the codepoint ending at
`p` is in the word class and the codepoint starting at `p` is not. -/
def fw_claim_cond (buf : List Nat) (p : Nat) : Bool :=
  p == buf.length ||
    (is_codepoint_boundary buf p &&
      is_letter_or_number (utf8_decode buf (utf8_prev buf p)) &&
      ! is_letter_or_number (utf8_decode buf p))

/-- The target position claim C5 describes: the first byte position
`p > offset` satisfying `fw_claim_cond` (defaulting to the buffer end, which
always satisfies it). -/
def forward_word_claim_target (buf : List Nat) (offset : Nat) : Nat :=
  (List.find? (fun p => decide (offset < p) && fw_claim_cond buf p)
    (List.range (buf.length + 1))).getD buf.length

/-- A session as the two constructors plus `init_state` leave it: the
default member initializers of the `handle` declaration, with `term_state`
moved to closed by `init_state` (no frame flag, no terminal-info colors, OSC
133 off as in the header default). -/
def fresh_handle : Session :=
  { buffer := []
    line_offset := [0]
    filled := 0
    returned := 0
    max_lines := 1
    prompt := []
    empty_message := []
    empty_message_fg := Color.mk 0 0 0
    fl := 0
    term_state := TermState.st_closed
    term_rows := 0
    term_cols := 0
    cur_frame_lines := 0
    frame_highlight_fg := Color.mk 0 0 0
    text_default_fg := Color.mk 0 0 0
    text_default_bg := Color.mk 0 0 0
    info_default_foreground := Color.mk 0 0 0
    info_default_background := Color.mk 0 0 0
    multiline := true
    insert := true
    osc133 := false
    initial_col := 0
    initial_row := 0
    offset := 0
    nchars := 0
    pos_x := 0
    requested_pos_x := 0
    pos_y := 0
    first := 0
    prompt_len := 0 }

/-- An open mid-edit session on a 20-column terminal holding the single byte
`a` with the cursor after it (as reached by preparing `fresh_handle` on a
20×25 window and typing `a`). -/
def sample_open : Session :=
  { fresh_handle with
    term_state := TermState.st_open
    term_cols := 20
    term_rows := 25
    initial_col := 1
    initial_row := 1
    buffer := [0x61]
    nchars := 1
    offset := 1
    pos_x := 1
    requested_pos_x := 1 }

/-- An open session on a 20-column terminal with an empty buffer (as just
prepared). -/
def sample_empty : Session :=
  { fresh_handle with
    term_state := TermState.st_open
    term_cols := 20
    term_rows := 25
    initial_col := 1
    initial_row := 1 }

/-- The overwrite scenario of claim C2: an open multiline 4-column session
holding `café` (bytes 63 61 66 c3 a9, wrapped as `line_offset = [0, 5]`),
cursor on the `é` (byte offset 3, column 3 of row 0), overwrite mode. -/
def c2_session : Session :=
  { fresh_handle with
    term_state := TermState.st_open
    term_cols := 4
    term_rows := 25
    initial_col := 1
    initial_row := 1
    buffer := [0x63, 0x61, 0x66, 0xc3, 0xa9]
    line_offset := [0, 5]
    max_lines := 2
    nchars := 4
    offset := 3
    pos_x := 3
    requested_pos_x := 3
    insert := false }

/-- The forward-word scenario of claim C5: an open 20-column session holding
`a b` with the cursor at the start. -/
def c5_session : Session :=
  { fresh_handle with
    term_state := TermState.st_open
    term_cols := 20
    term_rows := 25
    initial_col := 1
    initial_row := 1
    buffer := [0x61, 0x20, 0x62]
    nchars := 3 }

/-- The key sequence of claim C3's failing run: type `aaaé`, move one
codepoint left, toggle overwrite mode, type `e`. -/
def c3_keys : List KeyEvent :=
  [KeyEvent.unicode 0 0x61, KeyEvent.unicode 0 0x61, KeyEvent.unicode 0 0x61,
   KeyEvent.unicode 0 0xe9, KeyEvent.keysym 0 TERMKEY_SYM_LEFT,
   KeyEvent.keysym 0 TERMKEY_SYM_INSERT, KeyEvent.unicode 0 0x65]

/-- The state after preparing `fresh_handle` on a 4×25 window (empty prompt)
and handling the keys of `c3_keys`. -/
def c3_final : Session :=
  List.foldl (fun st k => (on_key st k).1) (prepare fresh_handle (4, 25) (1, 1)).1 c3_keys

/-- A byte in the continuation range neither ends a count nor is the escape
byte: `nonescape_len_go` outside a CSI sequence skips it. -/
theorem nonescape_go_cont (b : Nat) (t : List Nat) (h1 : 0x80 ≤ b) (h2 : b < 0xc0) :
    nonescape_len_go false (b :: t) = nonescape_len_go false t := by
  have hb : ¬ b = 0x1b := by omega
  have hc : isContB b = true := by
    simp only [isContB, decide_eq_true_eq]
    exact ⟨h1, h2⟩
  simp [nonescape_len_go, hb, hc]

/-- A non-escape, non-continuation byte outside a CSI sequence is counted. -/
theorem nonescape_go_count (b : Nat) (t : List Nat) (h1 : ¬ b = 0x1b)
    (h2 : isContB b = false) :
    nonescape_len_go false (b :: t) = 1 + nonescape_len_go false t := by
  simp [nonescape_len_go, h1, h2]

/-- A byte at or above `0xc0` is not a continuation byte. -/
theorem isContB_false_of_lead (b : Nat) (h : 0xc0 ≤ b) : isContB b = false := by
  simp only [isContB, decide_eq_false_iff_not]
  omega

/-- A byte below `0x80` is not a continuation byte. -/
theorem isContB_false_of_ascii (b : Nat) (h : b < 0x80) : isContB b = false := by
  simp only [isContB, decide_eq_false_iff_not]
  omega

/-- Prepending one encoded codepoint (other than ESC) adds exactly one to the
escape-aware visible length. -/
theorem nonescape_encode (c : Nat) (t : List Nat) (hne : c ≠ 0x1b) :
    nonescape_len_go false (utf8_encode c ++ t) = 1 + nonescape_len_go false t := by
  by_cases h1 : c < 0x80
  · have he : utf8_encode c = [c] := by simp [utf8_encode, h1]
    rw [he, List.singleton_append,
        nonescape_go_count c t hne (isContB_false_of_ascii c h1)]
  · by_cases h2 : c < 0x800
    · have he : utf8_encode c = [0xc0 + c / 64, 0x80 + c % 64] := by
        simp [utf8_encode, h1, h2]
      rw [he,
          show ([0xc0 + c / 64, 0x80 + c % 64] : List Nat) ++ t =
            (0xc0 + c / 64) :: ((0x80 + c % 64) :: t) from rfl,
          nonescape_go_count _ _ (by omega) (isContB_false_of_lead _ (by omega)),
          nonescape_go_cont _ _ (by omega) (by omega)]
    · by_cases h3 : c < 0x10000
      · have he : utf8_encode c = [0xe0 + c / 4096, 0x80 + c / 64 % 64, 0x80 + c % 64] := by
          simp [utf8_encode, h1, h2, h3]
        rw [he,
            show ([0xe0 + c / 4096, 0x80 + c / 64 % 64, 0x80 + c % 64] : List Nat) ++ t =
              (0xe0 + c / 4096) :: ((0x80 + c / 64 % 64) :: ((0x80 + c % 64) :: t)) from rfl,
            nonescape_go_count _ _ (by omega) (isContB_false_of_lead _ (by omega)),
            nonescape_go_cont _ _ (by omega) (by omega),
            nonescape_go_cont _ _ (by omega) (by omega)]
      · have he : utf8_encode c =
            [0xf0 + c / 262144, 0x80 + c / 4096 % 64, 0x80 + c / 64 % 64, 0x80 + c % 64] := by
          simp [utf8_encode, h1, h2, h3]
        rw [he,
            show ([0xf0 + c / 262144, 0x80 + c / 4096 % 64, 0x80 + c / 64 % 64,
                0x80 + c % 64] : List Nat) ++ t =
              (0xf0 + c / 262144) :: ((0x80 + c / 4096 % 64) :: ((0x80 + c / 64 % 64) ::
                ((0x80 + c % 64) :: t))) from rfl,
            nonescape_go_count _ _ (by omega) (isContB_false_of_lead _ (by omega)),
            nonescape_go_cont _ _ (by omega) (by omega),
            nonescape_go_cont _ _ (by omega) (by omega),
            nonescape_go_cont _ _ (by omega) (by omega)]

/-- Claim C8: for every byte string that is valid UTF-8 (it encodes the
codepoint sequence `cs`) and contains no ESC byte, the escape-aware visible
length `nonescape_len` equals the number of codepoints. -/
theorem C8_nonescape_len_codepoint_count (bs cs : List Nat) (henc : Utf8Encodes bs cs) :
    0x1b ∉ bs → nonescape_len bs = cs.length := by
  induction henc with
  | nil => intro _; rfl
  | cons c tl cs2 hlt htl ih =>
    intro hesc
    have hne : c ≠ 0x1b := by
      intro hEq
      subst hEq
      exact hesc (List.mem_append_left _ (by
        rw [show utf8_encode 0x1b = [0x1b] from rfl]
        exact List.mem_singleton_self 0x1b))
    have htl_esc : 0x1b ∉ tl := fun hm => hesc (List.mem_append_right _ hm)
    simp only [nonescape_len] at ih ⊢
    rw [nonescape_encode c tl hne, ih htl_esc, List.length_cons]
    omega

/-- Witness for claim C8 at the concrete byte string `aé` (61 c3 a9), which
encodes the two codepoints `a` and `é`. -/
theorem C8_nonescape_len_codepoint_count_witness :
    Utf8Encodes [0x61, 0xc3, 0xa9] [0x61, 0xe9] ∧
    0x1b ∉ ([0x61, 0xc3, 0xa9] : List Nat) ∧
    nonescape_len [0x61, 0xc3, 0xa9] = 2 := by
  have h2 : Utf8Encodes [0xc3, 0xa9] [0xe9] :=
    Utf8Encodes.cons 0xe9 [] [] (by omega) Utf8Encodes.nil
  have henc : Utf8Encodes [0x61, 0xc3, 0xa9] [0x61, 0xe9] :=
    Utf8Encodes.cons 0x61 [0xc3, 0xa9] [0xe9] (by omega) h2
  exact ⟨henc, by decide, C8_nonescape_len_codepoint_count _ _ henc (by decide)⟩

/-- The source loop of `recompute_line_offset` appends to its accumulator
exactly the break list the specification-side loop produces. -/
theorem recompute_go_spec (buf : List Nat) (tc : Nat) :
    ∀ (fuel avail o : Nat) (acc : List Nat),
      recompute_go buf tc fuel avail o acc = acc ++ recompute_breaks_spec buf tc fuel avail o := by
  intro fuel
  induction fuel with
  | zero => intro avail o acc; simp [recompute_go, recompute_breaks_spec]
  | succ n ih =>
    intro avail o acc
    by_cases h1 : o < buf.length
    · by_cases h2 : (offset_after_n_chars buf avail o).2 < avail
      · simp [recompute_go, recompute_breaks_spec, h1, h2]
      · simp [recompute_go, recompute_breaks_spec, h1, h2, ih]
    · simp [recompute_go, recompute_breaks_spec, h1]

/-- Claim C4: for a session with valid UTF-8 buffer and a row index inside
`line_offset`, `recompute_line_offset (s, r)` first truncates the offset
vector to length `r + 1` and then, starting from `o = line_offset[r]` with
`avail = term_cols − (prompt_len if r = 0 else 0)`, repeatedly consumes
`avail` codepoints, stopping when fewer than `avail` remain and otherwise
appending the break offset and continuing with `avail = term_cols` — i.e. it
equals the specification-side `recompute_line_offset_spec`. -/
theorem C4_recompute_refinement (s : Session) (r : Nat) (_hv : ValidUtf8 s.buffer)
    (hr : r < s.line_offset.length) :
    recompute_line_offset s r = recompute_line_offset_spec s r := by
  clear _hv
  have ht : resize_to (r + 1) s.line_offset = List.take (r + 1) s.line_offset := by
    have h0 : r + 1 - s.line_offset.length = 0 := by omega
    simp [resize_to, h0]
  simp only [recompute_line_offset, recompute_line_offset_spec, ht, recompute_go_spec]

/-- Witness for claim C4 on `sample_open` (buffer `a`, row 0). -/
theorem C4_recompute_refinement_witness :
    0 < sample_open.line_offset.length ∧ ValidUtf8 sample_open.buffer ∧
    recompute_line_offset sample_open 0 = recompute_line_offset_spec sample_open 0 := by
  have hv : ValidUtf8 sample_open.buffer :=
    ⟨[0x61], Utf8Encodes.cons 0x61 [] [] (by omega) Utf8Encodes.nil⟩
  exact ⟨by decide, hv, C4_recompute_refinement sample_open 0 hv (by decide)⟩

/-- Draining the key descriptor always counts as handling the event: the
`handled` component of `drain_keys` is `true` on every path. -/
theorem drain_keys_handled (ks : List KeyEvent) :
    ∀ (s : Session) (out : List Out) (eof : Bool), (drain_keys s out ks eof).2.2.1 = true := by
  induction ks with
  | nil => intro s out eof; rfl
  | cons k ks ih =>
    intro s out eof
    by_cases h : is_cancel_key s k
    · simp [drain_keys, h]
    · by_cases h2 : (on_key s k).2.2 = true
      · simp [drain_keys, h, h2]
      · simp [drain_keys, h, h2, ih]

/-- Claim C6: for every event passed to `process` — if it names the key
descriptor and a key commits the edit (or the decoder reports EOF, i.e. the
`done` component of `handle_one` is set), `process` returns the buffer as the
line value; if it names the key descriptor or the signalfd and no line is
completed, `process` returns `unexpected (true)` (the signalfd case only
refreshing the window size); and if it names neither descriptor, `process`
returns `unexpected (false)` with the session state unmodified. -/
theorem C6_process_outcomes (s : Session) :
    (∀ keys eof, (handle_one s (EpollEvent.keyReady keys eof)).2.2.2 = true →
      (process s (EpollEvent.keyReady keys eof)).2.2 =
        Except.ok (handle_one s (EpollEvent.keyReady keys eof)).1.buffer) ∧
    (∀ keys eof, (handle_one s (EpollEvent.keyReady keys eof)).2.2.2 = false →
      (process s (EpollEvent.keyReady keys eof)).2.2 = Except.error true) ∧
    (∀ cols rows, process s (EpollEvent.winch cols rows) =
      ({s with term_cols := cols, term_rows := rows}, [], Except.error true)) ∧
    process s EpollEvent.unknownFd = (s, [], Except.error false) := by
  refine ⟨?_, ?_, ?_, ?_⟩
  · intro keys eof h
    simp [process, h]
  · intro keys eof h
    have hh : (handle_one s (EpollEvent.keyReady keys eof)).2.2.1 = true :=
      drain_keys_handled keys s [] eof
    simp [process, h, hh]
  · intro cols rows
    simp [process, handle_one]
  · simp [process, handle_one]

/-- Witness for claim C6 on `sample_open`: an Enter keypress commits and
delivers the buffer; an event with no decodable key completes no line. -/
theorem C6_process_outcomes_witness :
    (handle_one sample_open (EpollEvent.keyReady [KeyEvent.keysym 0 TERMKEY_SYM_ENTER] false)).2.2.2
      = true ∧
    (process sample_open (EpollEvent.keyReady [KeyEvent.keysym 0 TERMKEY_SYM_ENTER] false)).2.2 =
      Except.ok (handle_one sample_open
        (EpollEvent.keyReady [KeyEvent.keysym 0 TERMKEY_SYM_ENTER] false)).1.buffer ∧
    (handle_one sample_open (EpollEvent.keyReady [] false)).2.2.2 = false ∧
    (process sample_open (EpollEvent.keyReady [] false)).2.2 = Except.error true := by
  refine ⟨rfl, ?_, rfl, ?_⟩
  · exact (C6_process_outcomes sample_open).1 [KeyEvent.keysym 0 TERMKEY_SYM_ENTER] false rfl
  · exact (C6_process_outcomes sample_open).2.1 [] false rfl

/-- Claim C7: calling `prepare` while the session is already open leaves
every field of the session state unchanged and writes nothing to the
terminal; only the first call per edit (from the closed state) performs the
setup, prompt emission and editing-state reset. -/
theorem C7_prepare_idempotent (s : Session) (winsz curpos : Nat × Nat)
    (h : s.term_state = TermState.st_open) : prepare s winsz curpos = (s, []) := by
  simp [prepare, h]

/-- Witness for claim C7 on the open session `sample_open`. -/
theorem C7_prepare_idempotent_witness :
    sample_open.term_state = TermState.st_open ∧
    prepare sample_open (80, 25) (1, 3) = (sample_open, []) :=
  ⟨rfl, C7_prepare_idempotent sample_open (80, 25) (1, 3) rfl⟩

/-- Claim C9: every edit action whose boundary precondition fails is a
complete no-op — backward-char, backspace, backward-word and line-discard
with the cursor at offset 0; forward-char, delete and kill-to-end with the
cursor at the buffer end; previous-screen-line on row 0 and next-screen-line
on the last row.  Each returns the state unchanged, emits no bytes, and does
not commit. -/
theorem C9_failed_guard_noops (s : Session) :
    (s.offset = 0 → cb_backward_char s = (s, [], false)) ∧
    (s.offset = 0 → cb_backspace s = (s, [], false)) ∧
    (s.offset = 0 → cb_backward_word s = (s, [], false)) ∧
    (s.offset = 0 → cb_unix_line_discard s = (s, [], false)) ∧
    (s.offset = s.buffer.length → cb_forward_char s = (s, [], false)) ∧
    (s.offset = s.buffer.length → cb_delete s = (s, [], false)) ∧
    (s.offset = s.buffer.length → cb_kill_line s = (s, [], false)) ∧
    (s.pos_y = 0 → cb_previous_screen_line s = (s, [], false)) ∧
    (s.pos_y + 1 = s.line_offset.length → cb_next_screen_line s = (s, [], false)) := by
  refine ⟨?_, ?_, ?_, ?_, ?_, ?_, ?_, ?_, ?_⟩
  · intro h; simp [cb_backward_char, h]
  · intro h; simp [cb_backspace, h]
  · intro h; simp [cb_backward_word, h]
  · intro h; simp [cb_unix_line_discard, h]
  · intro h; simp [cb_forward_char, h]
  · intro h; simp [cb_delete, h]
  · intro h; simp [cb_kill_line, h]
  · intro h; simp [cb_previous_screen_line, h]
  · intro h; simp [cb_next_screen_line, h]

/-- Witness for claim C9 on the freshly prepared empty session, where all
nine preconditions fail at once. -/
theorem C9_failed_guard_noops_witness :
    cb_backward_char sample_empty = (sample_empty, [], false) ∧
    cb_backspace sample_empty = (sample_empty, [], false) ∧
    cb_backward_word sample_empty = (sample_empty, [], false) ∧
    cb_unix_line_discard sample_empty = (sample_empty, [], false) ∧
    cb_forward_char sample_empty = (sample_empty, [], false) ∧
    cb_delete sample_empty = (sample_empty, [], false) ∧
    cb_kill_line sample_empty = (sample_empty, [], false) ∧
    cb_previous_screen_line sample_empty = (sample_empty, [], false) ∧
    cb_next_screen_line sample_empty = (sample_empty, [], false) := by
  obtain ⟨h1, h2, h3, h4, h5, h6, h7, h8, h9⟩ := C9_failed_guard_noops sample_empty
  exact ⟨h1 rfl, h2 rfl, h3 rfl, h4 rfl, h5 rfl, h6 rfl, h7 rfl, h8 rfl, h9 rfl⟩

/-- Claim C10: a Ctrl-D keypress while the buffer is non-empty is completely
ignored — the key table has no CTRL-`d` (or CTRL-`D`) binding, the
cancellation test rejects it, `on_key` leaves the state unchanged and emits
nothing, and `handle_one` consumes the event without committing or touching
the state. -/
theorem C10_ctrl_d_nonempty_ignored (s : Session) (h : s.buffer ≠ []) :
    (key_map_find false TERMKEY_KEYMOD_CTRL 0x64).isNone = true ∧
    (key_map_find false TERMKEY_KEYMOD_CTRL 0x44).isNone = true ∧
    ¬ is_cancel_key s (KeyEvent.unicode TERMKEY_KEYMOD_CTRL 0x64) ∧
    ¬ is_cancel_key s (KeyEvent.unicode TERMKEY_KEYMOD_CTRL 0x44) ∧
    on_key s (KeyEvent.unicode TERMKEY_KEYMOD_CTRL 0x64) = (s, [], false) ∧
    on_key s (KeyEvent.unicode TERMKEY_KEYMOD_CTRL 0x44) = (s, [], false) ∧
    handle_one s (EpollEvent.keyReady [KeyEvent.unicode TERMKEY_KEYMOD_CTRL 0x64] false) =
      (s, [], true, false) ∧
    handle_one s (EpollEvent.keyReady [KeyEvent.unicode TERMKEY_KEYMOD_CTRL 0x44] false) =
      (s, [], true, false) := by
  have hc64 : ¬ is_cancel_key s (KeyEvent.unicode TERMKEY_KEYMOD_CTRL 0x64) := by
    simp [is_cancel_key, TERMKEY_KEYMOD_CTRL, h]
  have hc44 : ¬ is_cancel_key s (KeyEvent.unicode TERMKEY_KEYMOD_CTRL 0x44) := by
    simp [is_cancel_key, TERMKEY_KEYMOD_CTRL, h]
  have ho64 : on_key s (KeyEvent.unicode TERMKEY_KEYMOD_CTRL 0x64) = (s, [], false) := rfl
  have ho44 : on_key s (KeyEvent.unicode TERMKEY_KEYMOD_CTRL 0x44) = (s, [], false) := rfl
  refine ⟨rfl, rfl, hc64, hc44, ho64, ho44, ?_, ?_⟩
  · simp [handle_one, drain_keys, hc64, ho64]
  · simp [handle_one, drain_keys, hc44, ho44]

/-- Witness for claim C10 on `sample_open` (whose buffer holds one byte). -/
theorem C10_ctrl_d_nonempty_ignored_witness :
    sample_open.buffer ≠ [] ∧
    on_key sample_open (KeyEvent.unicode TERMKEY_KEYMOD_CTRL 0x64) = (sample_open, [], false) ∧
    handle_one sample_open
        (EpollEvent.keyReady [KeyEvent.unicode TERMKEY_KEYMOD_CTRL 0x64] false) =
      (sample_open, [], true, false) := by
  have h : sample_open.buffer ≠ [] := by decide
  obtain ⟨-, -, -, -, h5, -, h7, -⟩ := C10_ctrl_d_nonempty_ignored sample_open h
  exact ⟨h, h5, h7⟩

/-- Counterexample to claim C1 as stated: on a session whose buffer holds the
byte `a`, a decoded Ctrl-C keypress commits the edit, but the line `process`
delivers is the non-empty buffer `a`, not the empty string the claim
requires. -/
theorem C1_counterexample :
    (process sample_open
        (EpollEvent.keyReady [KeyEvent.unicode TERMKEY_KEYMOD_CTRL 0x63] false)).2.2 =
      Except.ok [0x61] ∧ ([0x61] : List Nat) ≠ [] :=
  ⟨rfl, by decide⟩

/-- Claim C1 as amended: a decoded Ctrl-C keypress (codepoint `C` or `c`,
modifier mask exactly CTRL) commits the edit and the line delivered to the
caller equals the buffer contents at the time of the keypress — which is
empty only when the buffer is; a Ctrl-D keypress commits only while the
buffer is empty, and then delivers the empty string. -/
theorem C1_amended (s : Session) (ks : List KeyEvent) (eof : Bool) :
    ((process s (EpollEvent.keyReady (KeyEvent.unicode TERMKEY_KEYMOD_CTRL 0x43 :: ks) eof)).2.2 =
      Except.ok s.buffer) ∧
    ((process s (EpollEvent.keyReady (KeyEvent.unicode TERMKEY_KEYMOD_CTRL 0x63 :: ks) eof)).2.2 =
      Except.ok s.buffer) ∧
    (s.buffer = [] →
      ((process s (EpollEvent.keyReady (KeyEvent.unicode TERMKEY_KEYMOD_CTRL 0x44 :: ks) eof)).2.2 =
        Except.ok []) ∧
      ((process s (EpollEvent.keyReady (KeyEvent.unicode TERMKEY_KEYMOD_CTRL 0x64 :: ks) eof)).2.2 =
        Except.ok [])) := by
  have hC : is_cancel_key s (KeyEvent.unicode TERMKEY_KEYMOD_CTRL 0x43) := ⟨rfl, Or.inl rfl⟩
  have hc : is_cancel_key s (KeyEvent.unicode TERMKEY_KEYMOD_CTRL 0x63) :=
    ⟨rfl, Or.inr (Or.inl rfl)⟩
  have hh1 : handle_one s (EpollEvent.keyReady (KeyEvent.unicode TERMKEY_KEYMOD_CTRL 0x43 :: ks) eof)
      = (s, [], true, true) := by
    simp [handle_one, drain_keys, hC]
  have hh2 : handle_one s (EpollEvent.keyReady (KeyEvent.unicode TERMKEY_KEYMOD_CTRL 0x63 :: ks) eof)
      = (s, [], true, true) := by
    simp [handle_one, drain_keys, hc]
  refine ⟨by simp [process, hh1], by simp [process, hh2], fun hbe => ⟨?_, ?_⟩⟩
  · have hD : is_cancel_key s (KeyEvent.unicode TERMKEY_KEYMOD_CTRL 0x44) :=
      ⟨rfl, Or.inr (Or.inr ⟨hbe, Or.inl rfl⟩)⟩
    have hh : handle_one s
        (EpollEvent.keyReady (KeyEvent.unicode TERMKEY_KEYMOD_CTRL 0x44 :: ks) eof) =
        (s, [], true, true) := by
      simp [handle_one, drain_keys, hD]
    simp [process, hh, hbe]
  · have hd : is_cancel_key s (KeyEvent.unicode TERMKEY_KEYMOD_CTRL 0x64) :=
      ⟨rfl, Or.inr (Or.inr ⟨hbe, Or.inr rfl⟩)⟩
    have hh : handle_one s
        (EpollEvent.keyReady (KeyEvent.unicode TERMKEY_KEYMOD_CTRL 0x64 :: ks) eof) =
        (s, [], true, true) := by
      simp [handle_one, drain_keys, hd]
    simp [process, hh, hbe]

/-- Witness for the amended claim C1 on the empty-buffer session: Ctrl-D
commits and delivers the empty string. -/
theorem C1_amended_witness :
    sample_empty.buffer = [] ∧
    (process sample_empty
        (EpollEvent.keyReady [KeyEvent.unicode TERMKEY_KEYMOD_CTRL 0x64] false)).2.2 =
      Except.ok [] :=
  ⟨rfl, ((C1_amended sample_empty [] false).2.2 rfl).2⟩

/-- Claim C2 evaluated at its failing input: overwriting the two-byte `é` of
`café` (cursor at offset 3, overwrite mode, 4-column multiline session) with
the one-byte `e` leaves the buffer at five bytes with the stray continuation
byte `0xa9` still present (claim: four bytes, `cafe`), and shifts the later
line offset up to 6 (claim: down to 4). -/
theorem C2_overwrite_bug_eval :
    (on_key c2_session (KeyEvent.unicode 0 0x65)).1.buffer = [0x63, 0x61, 0x66, 0x65, 0xa9] ∧
    (on_key c2_session (KeyEvent.unicode 0 0x65)).1.buffer.length = 5 ∧
    (on_key c2_session (KeyEvent.unicode 0 0x65)).1.line_offset = [0, 6] ∧
    (on_key c2_session (KeyEvent.unicode 0 0x65)).1.buffer ≠ [0x63, 0x61, 0x66, 0x65] :=
  ⟨rfl, rfl, rfl, by decide⟩

/-- Claim C3 refuted on a concrete run: starting from a freshly prepared
4-column session (empty prompt) and handling the keys `a a a é LEFT INSERT e`
leaves a 5-byte buffer whose `line_offset` is `[0, 6]` — the entry 6 lies
beyond the buffer end and is no codepoint boundary (the overwrite slip of
claim C2 shifted it the wrong way). -/
theorem C3_invariant_violation :
    c3_final.buffer = [0x61, 0x61, 0x61, 0x65, 0xa9] ∧
    c3_final.line_offset = [0, 6] ∧
    List.all c3_final.line_offset (fun e => is_codepoint_boundary c3_final.buffer e) = false :=
  ⟨rfl, rfl, rfl⟩

/-- Claim C5 evaluated at its failing input: on the buffer `a b` with the
cursor at offset 0, the first position after the cursor satisfying the
claim's stopping condition (a word codepoint ends there, a non-word codepoint
starts there) is byte 1, but `cb_forward_word` moves the cursor to byte 3
(the buffer end) — the scan's reused lookahead variable skips the first
transition. -/
theorem C5_forward_word_bug_eval :
    (cb_forward_word c5_session).1.offset = 3 ∧
    forward_word_claim_target c5_session.buffer c5_session.offset = 1 ∧
    (3 : Nat) ≠ 1 :=
  ⟨rfl, rfl, by decide⟩

end Nrl

